import Mathlib

/-!
Shallow embedding of the `binance_analytics` backend (files
`backend/utils.py`, `backend/models.py`, `backend/data_handler.py`,
`backend/analytics.py`, `backend/main.py`) for checking the
natural-language specification against the code.

Conventions of the embedding:
* Python floats are modelled by `ℚ` (exact, idealized arithmetic); the
  float literal `1e-6` is the rational `1/1000000`.
* `math.sqrt` is modelled by an abstract parameter `sqrt : ℚ → ℚ`.
  Every theorem below is proved for an arbitrary such function, hence in
  particular for the real square root; no property below depends on the
  value of a square root.
* Python dictionaries keyed by symbol are modelled by functions
  `String → _` (for the per-symbol histories) or by ordered association
  lists (for tick buffers and rule sets, where iteration order matters).
* `collections.deque(maxlen=n)` is modelled by a list together with the
  eviction step `dequeAppend`.
* Fallible code is modelled in `Except`: the only unguarded division on
  the modelled paths is the simple-return computation in
  `AnalyticsEngine.process_window` (Python raises `ZeroDivisionError`
  when the prior price is `0`), which becomes `Except.error ()`.
* `np.random.uniform(0, 1)` (the backoff jitter) is an explicit
  parameter `jitter`, constrained by `0 ≤ jitter < 1` in theorems.
-/

/-! ### models.py -/

/-- `models.Tick`: raw tick from the WebSocket feed. -/
structure Tick where
  timestamp : ℚ
  symbol : String
  price : ℚ
  quantity : ℚ
deriving DecidableEq

/-- `models.SampledWindow`: 5-second aggregated data window. -/
structure SampledWindow where
  timestamp : ℚ
  symbol : String
  mean_price : ℚ
  std_price : ℚ
  min_price : ℚ
  max_price : ℚ
  total_volume : ℚ
  tick_count : ℕ
  vwap : ℚ
deriving DecidableEq

/-- `models.AnalyticsMetrics`: computed analytics for a symbol. -/
structure AnalyticsMetrics where
  timestamp : ℚ
  symbol : String
  mean_price : ℚ
  std_price : ℚ
  volatility : ℚ
  z_score : ℚ
  sma_20 : ℚ
  ema_20 : ℚ
  rsi : ℚ
  correlation_btc_eth : Option ℚ
  garch_forecast : Option ℚ
  adf_pvalue : Option ℚ
  trend : String
deriving DecidableEq

/-- An alert rule as stored in `main.alert_rules` (the dict built in
`create_alert_rule` / `load_alerts_from_db`). -/
structure AlertRule where
  rule_id : String
  symbol : String
  metric : String
  condition : String
  threshold : ℚ
  enabled : Bool
  triggered_count : ℕ
deriving DecidableEq

/-- An alert event as appended to `main.alert_history` in `check_alerts`. -/
structure AlertEvent where
  rule_id : String
  timestamp : ℚ
  symbol : String
  metric : String
  actual_value : ℚ
  threshold : ℚ
deriving DecidableEq

/-! ### utils.py -/

/-- `utils.calculate_mean`: `sum(values) / len(values) if values else 0.0`. -/
def calculate_mean (values : List ℚ) : ℚ :=
  if values = [] then 0 else values.sum / values.length

/-- `utils.calculate_std` (population standard deviation).
The Python default argument `mean=None` and the truthiness test
`m = mean or calculate_mean(values)` are modelled by an `Option`
argument: `none` and a passed-in mean equal to `0.0` (both falsy in
Python) fall back to `calculate_mean values`. -/
def calculate_std (sqrt : ℚ → ℚ) (values : List ℚ) (mean : Option ℚ) : ℚ :=
  if values.length < 2 then 0
  else
    let m := match mean with
      | none => calculate_mean values
      | some v => if v = 0 then calculate_mean values else v
    sqrt ((values.map (fun x => (x - m) ^ 2)).sum / values.length)

/-- `utils.calculate_vwap`: volume weighted average price. -/
def calculate_vwap (prices volumes : List ℚ) : ℚ :=
  if prices = [] ∨ volumes = [] ∨ prices.length ≠ volumes.length then 0
  else
    let num := ((prices.zip volumes).map (fun pv => pv.1 * pv.2)).sum
    let denom := volumes.sum
    if denom > 0 then num / denom else 0

/-- The Python slice `values[-period:]`.  For `period = 0` the slice
`values[-0:]` is `values[0:]`, i.e. the whole list. -/
def lastSlice (values : List ℚ) (period : ℕ) : List ℚ :=
  if period = 0 then values else values.drop (values.length - period)

/-- `utils.calculate_sma`: simple moving average over the last `period`
points, mean of everything when fewer are available. -/
def calculate_sma (values : List ℚ) (period : ℕ) : ℚ :=
  if values.length < period then calculate_mean values
  else calculate_mean (lastSlice values period)

/-- `utils.calculate_ema`: exponential moving average, seeded with the
first element and folded over the rest with `k = 2 / (period + 1)`. -/
def calculate_ema (values : List ℚ) (period : ℕ) : ℚ :=
  if values = [] then 0
  else if values.length < period then calculate_mean values
  else
    let k : ℚ := 2 / ((period : ℚ) + 1)
    values.tail.foldl (fun ema val => val * k + ema * (1 - k)) values.headI

/-- The consecutive differences `values[i] - values[i-1]` of `utils.calculate_rsi`. -/
def priceChanges (values : List ℚ) : List ℚ :=
  (values.zip values.tail).map (fun p => p.2 - p.1)

/-- `utils.calculate_rsi`: relative strength index over the last
`period` price changes; `50.0` when fewer than `period + 1` points. -/
def calculate_rsi (values : List ℚ) (period : ℕ) : ℚ :=
  if values.length < period + 1 then 50
  else
    let recent := lastSlice (priceChanges values) period
    let avg_gain := (recent.map (fun c => max c 0)).sum / (period : ℚ)
    let avg_loss := (recent.map (fun c => |min c 0|)).sum / (period : ℚ)
    if avg_loss = 0 then (if avg_gain > 0 then 100 else 50)
    else 100 - 100 / (1 + avg_gain / avg_loss)

/-- `utils.calculate_z_score`: `(value - mean) / std`, `0.0` on zero std. -/
def calculate_z_score (value mean std : ℚ) : ℚ :=
  if std = 0 then 0 else (value - mean) / std

/-- `utils.calculate_correlation`: Pearson correlation coefficient;
`None` on length mismatch, short input, or a degenerate series. -/
def calculate_correlation (sqrt : ℚ → ℚ) (x y : List ℚ) : Option ℚ :=
  if x.length < 2 ∨ y.length < 2 ∨ x.length ≠ y.length then none
  else
    let x_mean := calculate_mean x
    let y_mean := calculate_mean y
    let numerator := ((x.zip y).map (fun p => (p.1 - x_mean) * (p.2 - y_mean))).sum
    let x_std := calculate_std sqrt x (some x_mean)
    let y_std := calculate_std sqrt y (some y_mean)
    if x_std = 0 ∨ y_std = 0 then none
    else
      let denominator := (x.length : ℚ) * x_std * y_std
      if denominator ≠ 0 then some (numerator / denominator) else none

/-- `utils.detect_trend`. -/
def detect_trend (sma ema current_price : ℚ) : String :=
  if current_price > sma ∧ sma > ema then "uptrend"
  else if current_price < sma ∧ sma < ema then "downtrend"
  else "neutral"

/-- `utils.check_alert_condition`; `==`/`!=` use the absolute-difference
epsilon `1e-6`. -/
def check_alert_condition (value : ℚ) (condition : String) (threshold : ℚ) : Bool :=
  if condition = ">" then decide (value > threshold)
  else if condition = "<" then decide (value < threshold)
  else if condition = ">=" then decide (value ≥ threshold)
  else if condition = "<=" then decide (value ≤ threshold)
  else if condition = "==" then decide (|value - threshold| < 1 / 1000000)
  else if condition = "!=" then decide (|value - threshold| ≥ 1 / 1000000)
  else false

/-- `utils.calculate_adf_test_simple`: simplified stationarity heuristic. -/
def calculate_adf_test_simple (values : List ℚ) : Option ℚ :=
  if values.length < 10 then none
  else
    let mean := calculate_mean values
    let autocov := ((values.tail.zip values).map
      (fun p => (p.1 - mean) * (p.2 - mean))).sum / (values.length : ℚ)
    let var := (values.map (fun v => (v - mean) ^ 2)).sum / (values.length : ℚ)
    if var = 0 then some 1
    else some (1 / (1 + |autocov / var|))

/-- `utils.calculate_garch_volatility_forecast`: simplified GARCH(1,1)
forecast with `alpha = 0.1`, `beta = 0.85`. -/
def calculate_garch_volatility_forecast (sqrt : ℚ → ℚ) (returns : List ℚ) : Option ℚ :=
  if returns.length < 10 then none
  else
    let alpha : ℚ := 1 / 10
    let beta : ℚ := 85 / 100
    let current_return := returns.getLastD 0
    let current_vol_sq := (calculate_std sqrt returns none) ^ 2
    let mean := calculate_mean returns
    let long_term_var := (returns.map (fun r => (r - mean) ^ 2)).sum / (returns.length : ℚ)
    let omega := (1 - alpha - beta) * long_term_var
    let forecast_vol_sq := omega + alpha * current_return ^ 2 + beta * current_vol_sq
    some (sqrt (max forecast_vol_sq 0))

/-- `utils.exponential_backoff`: `min(base * 2 ** attempt, max_wait)`
plus the jitter drawn from `np.random.uniform(0, 1)` (here an explicit
parameter). Defaults in the source: `base = 1.0`, `max_wait = 60.0`. -/
def exponential_backoff (attempt : ℕ) (base max_wait jitter : ℚ) : ℚ :=
  min (base * (2 : ℚ) ^ attempt) max_wait + jitter

/-! ### data_handler.py -/

/-- Python `min(list)` on the non-empty lists used by `TickBuffer.flush`
(the `[]` case is unreachable there: empty buffers are skipped). -/
def listMin : List ℚ → ℚ
  | [] => 0
  | p :: ps => ps.foldl min p

/-- Python `max(list)` on the non-empty lists used by `TickBuffer.flush`. -/
def listMax : List ℚ → ℚ
  | [] => 0
  | p :: ps => ps.foldl max p

/-- The aggregated window built for one symbol inside `TickBuffer.flush`. -/
def flushWindow (sqrt : ℚ → ℚ) (current_time : ℚ) (symbol : String)
    (ticks : List Tick) : SampledWindow :=
  let prices := ticks.map (fun t => t.price)
  let quantities := ticks.map (fun t => t.quantity)
  let mean_price := calculate_mean prices
  { timestamp := current_time
    symbol := symbol
    mean_price := mean_price
    std_price := calculate_std sqrt prices (some mean_price)
    min_price := listMin prices
    max_price := listMax prices
    total_volume := quantities.sum
    tick_count := ticks.length
    vwap := calculate_vwap prices quantities }

/-- `TickBuffer.flush`: one window per symbol with a non-empty buffer
(`if not ticks: continue`); empty buffers emit nothing.  The buffer dict
is modelled as an association list; the source additionally clears the
buffer and resets the flush clock, which does not affect the emitted
windows. -/
def flush (sqrt : ℚ → ℚ) (current_time : ℚ)
    (buffer : List (String × List Tick)) : List (String × SampledWindow) :=
  buffer.filterMap (fun e =>
    if e.2 = [] then none
    else some (e.1, flushWindow sqrt current_time e.1 e.2))

/-- Connection state of `BinanceWebSocketClient` relevant to the
reconnect loop of `connect` (uptime bookkeeping omitted).  `failed`
models having hit the `break` after `max_reconnect_attempts`. -/
structure ClientState where
  is_connected : Bool
  reconnect_attempts : ℕ
  max_reconnect_attempts : ℕ
  failed : Bool
deriving DecidableEq

/-- One iteration of the `while` loop in
`BinanceWebSocketClient.connect`, given whether the connection attempt
succeeded (`ok = true`: `ws_connect` returned and `reconnect_attempts`
is set to `0`) or raised (`ok = false`: the `except` branch increments
the counter and, below the retry cap, sleeps
`utils.exponential_backoff(self.reconnect_attempts)` with the source
defaults `base = 1`, `max_wait = 60`).  Returns the new state and the
wait time chosen, if any. -/
def connectStep (st : ClientState) (ok : Bool) (jitter : ℚ) :
    ClientState × Option ℚ :=
  if ok then
    ({ st with is_connected := true, reconnect_attempts := 0 }, none)
  else
    let attempts := st.reconnect_attempts + 1
    if st.max_reconnect_attempts ≤ attempts then
      ({ st with is_connected := false, reconnect_attempts := attempts,
                 failed := true }, none)
    else
      ({ st with is_connected := false, reconnect_attempts := attempts },
       some (exponential_backoff attempts 1 60 jitter))

/-! ### analytics.py -/

/-- Append to a `collections.deque(maxlen := maxlen)`: elements beyond
the capacity are evicted from the front. -/
def dequeAppend (maxlen : ℕ) (l : List ℚ) (x : ℚ) : List ℚ :=
  if maxlen < (l ++ [x]).length then (l ++ [x]).drop ((l ++ [x]).length - maxlen)
  else l ++ [x]

/-- State of `AnalyticsEngine`: per-symbol bounded histories (the
`defaultdict(deque)` dicts), the set of symbols materialized in
`price_history` (Python `defaultdict` inserts a key on first access;
`process_window` tests `in self.price_history`), and the metrics cache. -/
structure EngineState where
  window_size : ℕ
  max_history : ℕ
  price_history : String → List ℚ
  volume_history : String → List ℚ
  timestamp_history : String → List ℚ
  returns_history : String → List ℚ
  known_symbols : List String
  latest_metrics : String → Option AnalyticsMetrics

/-- `AnalyticsEngine.__init__` (source defaults `window_size = 60`,
`max_history = 500`). -/
def initEngine (window_size max_history : ℕ) : EngineState :=
  { window_size := window_size
    max_history := max_history
    price_history := fun _ => []
    volume_history := fun _ => []
    timestamp_history := fun _ => []
    returns_history := fun _ => []
    known_symbols := []
    latest_metrics := fun _ => none }

/-- The simple-return step of `AnalyticsEngine.process_window`
(lines 44–47): if the post-append price history has more than one
element, divide by the prior price `self.price_history[symbol][-2]`.
Python raises `ZeroDivisionError` when that prior price is exactly `0`;
this is the `Except.error ()` case. -/
def computeReturns (maxlen : ℕ) (ph old_returns : List ℚ) (mean_price : ℚ) :
    Except Unit (List ℚ) :=
  if 1 < ph.length then
    if ph.getD (ph.length - 2) 0 = 0 then Except.error ()
    else Except.ok (dequeAppend maxlen old_returns
      ((mean_price - ph.getD (ph.length - 2) 0) / ph.getD (ph.length - 2) 0))
  else Except.ok old_returns

/-- The metrics computation of `AnalyticsEngine.process_window`
(lines 49–105), over the already-updated history snapshots. -/
def computeMetrics (sqrt : ℚ → ℚ) (st : EngineState) (w : SampledWindow)
    (prices volumes returns : List ℚ) : AnalyticsMetrics :=
  let mean_price := calculate_mean prices
  let std_price := calculate_std sqrt prices (some mean_price)
  let volatility := if mean_price > 0 then std_price / mean_price else 0
  let recent_prices :=
    if st.window_size ≤ prices.length then lastSlice prices st.window_size
    else prices
  let recent_mean := calculate_mean recent_prices
  let recent_std := calculate_std sqrt recent_prices (some recent_mean)
  let z_score := calculate_z_score w.mean_price recent_mean recent_std
  let sma_20 := calculate_sma prices 20
  let ema_20 := calculate_ema prices 20
  let rsi := calculate_rsi prices 14
  let trend := detect_trend sma_20 ema_20 w.mean_price
  let adf_pvalue := calculate_adf_test_simple prices
  let garch_forecast := calculate_garch_volatility_forecast sqrt returns
  let correlation : Option ℚ :=
    if w.symbol = "BTCUSDT" ∧ "ETHUSDT" ∈ st.known_symbols then
      let eth_prices := st.price_history "ETHUSDT"
      if eth_prices.length = prices.length
      then calculate_correlation sqrt prices eth_prices else none
    else if w.symbol = "ETHUSDT" ∧ "BTCUSDT" ∈ st.known_symbols then
      let btc_prices := st.price_history "BTCUSDT"
      if prices.length = btc_prices.length
      then calculate_correlation sqrt btc_prices prices else none
    else none
  { timestamp := w.timestamp
    symbol := w.symbol
    mean_price := mean_price
    std_price := std_price
    volatility := volatility
    z_score := z_score
    sma_20 := sma_20
    ema_20 := ema_20
    rsi := rsi
    correlation_btc_eth := correlation
    garch_forecast := garch_forecast
    adf_pvalue := adf_pvalue
    trend := trend }

/-- The state after `process_window` has appended to the four history
deques of `w.symbol` and cached the fresh metrics. -/
def updateEngine (st : EngineState) (w : SampledWindow)
    (ph vh th rh : List ℚ) (m : AnalyticsMetrics) : EngineState :=
  { st with
    price_history := fun s => if s = w.symbol then ph else st.price_history s
    volume_history := fun s => if s = w.symbol then vh else st.volume_history s
    timestamp_history := fun s => if s = w.symbol then th else st.timestamp_history s
    returns_history := fun s => if s = w.symbol then rh else st.returns_history s
    known_symbols :=
      if w.symbol ∈ st.known_symbols then st.known_symbols
      else w.symbol :: st.known_symbols
    latest_metrics := fun s => if s = w.symbol then some m else st.latest_metrics s }

/-- `AnalyticsEngine.process_window`: append the window to the bounded
histories, compute the simple return against the prior price (a
`ZeroDivisionError`, i.e. `Except.error`, when the prior price is `0`),
then compute and cache the metrics snapshot. -/
def process_window (sqrt : ℚ → ℚ) (st : EngineState) (w : SampledWindow) :
    Except Unit (EngineState × AnalyticsMetrics) :=
  let ph := dequeAppend st.max_history (st.price_history w.symbol) w.mean_price
  let vh := dequeAppend st.max_history (st.volume_history w.symbol) w.total_volume
  let th := dequeAppend st.max_history (st.timestamp_history w.symbol) w.timestamp
  match computeReturns st.max_history ph (st.returns_history w.symbol) w.mean_price with
  | Except.error e => Except.error e
  | Except.ok rh =>
    let m := computeMetrics sqrt st w ph vh rh
    Except.ok (updateEngine st w ph vh th rh m, m)

/-- A sequence of `process_window` calls (the per-flush driver loop in
`main.sampling_task`), stopping at the first `ZeroDivisionError`. -/
def runWindows (sqrt : ℚ → ℚ) (st : EngineState) :
    List SampledWindow → Except Unit EngineState
  | [] => Except.ok st
  | w :: rest =>
    match process_window sqrt st w with
    | Except.error e => Except.error e
    | Except.ok (st2, _) => runWindows sqrt st2 rest

/-- Number of windows in `ws` for symbol `s`. -/
def symbolCount (s : String) (ws : List SampledWindow) : ℕ :=
  (ws.filter (fun w => w.symbol = s)).length

/-- The open position dict of `AnalyticsEngine.backtest_mean_reversion`
(`{"type": ..., "price": ..., "index": ...}`). -/
structure BtPosition where
  side : String
  price : ℚ
  index : ℕ
deriving DecidableEq

/-- A closed trade record of `backtest_mean_reversion`
(`{"pnl": ..., "type": ...}`). -/
structure TradeRec where
  pnl : ℚ
  side : String
deriving DecidableEq

/-- The result dict of `backtest_mean_reversion`.  The early return for
short histories is `{"trades": 0, "wins": 0, "losses": 0}` — it carries
no `win_rate`, `total_pnl` or `avg_pnl` keys, modelled as `none`. -/
structure BacktestResult where
  trades : ℕ
  wins : ℕ
  losses : ℕ
  win_rate : Option ℚ
  total_pnl : Option ℚ
  avg_pnl : Option ℚ
deriving DecidableEq

/-- One iteration of the `for i in range(20, len(prices))` loop of
`backtest_mean_reversion`: rolling z-score of `prices[i]` against the
trailing 20-window `prices[i-20:i]`, entry above `entry_threshold`
(short) or below `-entry_threshold` (long), exit when
`abs(z) < exit_threshold`. -/
def backtestStep (sqrt : ℚ → ℚ) (prices : List ℚ)
    (entry_threshold exit_threshold : ℚ) (acc : List TradeRec × Option BtPosition)
    (i : ℕ) : List TradeRec × Option BtPosition :=
  let recent := (prices.drop (i - 20)).take 20
  let mean := calculate_mean recent
  let std := calculate_std sqrt recent (some mean)
  let z := calculate_z_score (prices.getD i 0) mean std
  match acc.2 with
  | none =>
    if z > entry_threshold then
      (acc.1, some { side := "short", price := prices.getD i 0, index := i })
    else if z < -entry_threshold then
      (acc.1, some { side := "long", price := prices.getD i 0, index := i })
    else acc
  | some pos =>
    if |z| < exit_threshold then
      let pnl := if pos.side = "long" then prices.getD i 0 - pos.price
                 else pos.price - prices.getD i 0
      (acc.1 ++ [{ pnl := pnl, side := pos.side }], none)
    else acc

/-- `AnalyticsEngine.backtest_mean_reversion` (source defaults
`entry_threshold = 2.0`, `exit_threshold = 0.0`). -/
def backtest_mean_reversion (sqrt : ℚ → ℚ) (prices : List ℚ)
    (entry_threshold exit_threshold : ℚ) : BacktestResult :=
  if prices.length < 20 then
    { trades := 0, wins := 0, losses := 0,
      win_rate := none, total_pnl := none, avg_pnl := none }
  else
    let final := (List.range' 20 (prices.length - 20)).foldl
      (backtestStep sqrt prices entry_threshold exit_threshold) ([], none)
    let trades := final.1
    let wins := (trades.filter (fun t => t.pnl > 0)).length
    let losses := (trades.filter (fun t => t.pnl ≤ 0)).length
    let total_pnl := (trades.map (fun t => t.pnl)).sum
    { trades := trades.length
      wins := wins
      losses := losses
      win_rate := some (if trades = [] then 0 else (wins : ℚ) / trades.length)
      total_pnl := some total_pnl
      avg_pnl := some (if trades = [] then 0 else total_pnl / trades.length) }

/-! ### main.py -/

/-- One iteration of the rule loop in `main.check_alerts`: skip disabled
rules, resolve the metric name (`z_score`, `volatility`, `price`,
`rsi`; anything else is silently skipped), test the condition and on a
match increment `triggered_count` and append one event to the bounded
history (`alert_history.pop(0)` once the cap is exceeded).  Note the
source never compares `rule["symbol"]` with `metrics.symbol`. -/
def checkAlertRule (metrics : AnalyticsMetrics) (now_ms : ℚ) (max_history : ℕ)
    (acc : List AlertRule × List AlertEvent) (rule : AlertRule) :
    List AlertRule × List AlertEvent :=
  if ¬ rule.enabled then (acc.1 ++ [rule], acc.2)
  else
    let actual_value : Option ℚ :=
      if rule.metric = "z_score" then some metrics.z_score
      else if rule.metric = "volatility" then some metrics.volatility
      else if rule.metric = "price" then some metrics.mean_price
      else if rule.metric = "rsi" then some metrics.rsi
      else none
    match actual_value with
    | none => (acc.1 ++ [rule], acc.2)
    | some v =>
      if check_alert_condition v rule.condition rule.threshold then
        let rule2 := { rule with triggered_count := rule.triggered_count + 1 }
        let hist := acc.2 ++ [⟨rule.rule_id, now_ms, rule.symbol, rule.metric,
                               v, rule.threshold⟩]
        let hist2 := if max_history < hist.length then hist.tail else hist
        (acc.1 ++ [rule2], hist2)
      else (acc.1 ++ [rule], acc.2)

/-- `main.check_alerts` over the ordered rule set and the alert history
(`MAX_ALERT_HISTORY = 1000` in the source): returns the updated rules
and history. -/
def check_alerts (rules : List AlertRule) (history : List AlertEvent)
    (metrics : AnalyticsMetrics) (now_ms : ℚ) (max_history : ℕ) :
    List AlertRule × List AlertEvent :=
  rules.foldl (checkAlertRule metrics now_ms max_history) ([], history)

/-- The post-append price history `self.price_history[symbol]` as read
inside `process_window` (lines 45–46). -/
def appendedPriceHistory (st : EngineState) (w : SampledWindow) : List ℚ :=
  dequeAppend st.max_history (st.price_history w.symbol) w.mean_price

/-- The prior price `self.price_history[symbol][-2]` used by the simple
return computation of `process_window`. -/
def priorPrice (st : EngineState) (w : SampledWindow) : ℚ :=
  (appendedPriceHistory st w).getD ((appendedPriceHistory st w).length - 2) 0

/-! ## Helper lemmas -/

theorem dequeAppend_length (M : ℕ) (l : List ℚ) (x : ℚ) :
    (dequeAppend M l x).length = min (l.length + 1) M := by
  rw [dequeAppend]
  split_ifs with h <;>
    simp only [List.length_drop, List.length_append, List.length_singleton] at h ⊢ <;>
    omega

theorem dequeAppend_subset (M : ℕ) (l : List ℚ) (x : ℚ) :
    ∀ y ∈ dequeAppend M l x, y ∈ l ++ [x] := by
  intro y hy
  rw [dequeAppend] at hy
  split_ifs at hy with h
  · exact List.drop_subset _ _ hy
  · exact hy

theorem dequeAppend_ne_zero {M : ℕ} {l : List ℚ} {x : ℚ}
    (hl : ∀ y ∈ l, y ≠ 0) (hx : x ≠ 0) :
    ∀ y ∈ dequeAppend M l x, y ≠ 0 := by
  intro y hy
  rcases List.mem_append.mp (dequeAppend_subset M l x y hy) with h | h
  · exact hl y h
  · rw [List.mem_singleton.mp h]; exact hx

theorem le_calculate_mean {l : List ℚ} {m : ℚ} (hne : l ≠ [])
    (h : ∀ x ∈ l, m ≤ x) : m ≤ calculate_mean l := by
  rw [calculate_mean, if_neg hne]
  have hlen : (0 : ℚ) < l.length := by exact_mod_cast List.length_pos.mpr hne
  rw [le_div_iff₀ hlen]
  calc m * l.length = l.length • m := by rw [nsmul_eq_mul]; ring
    _ ≤ l.sum := List.card_nsmul_le_sum l m h

theorem calculate_mean_le {l : List ℚ} {m : ℚ} (hne : l ≠ [])
    (h : ∀ x ∈ l, x ≤ m) : calculate_mean l ≤ m := by
  rw [calculate_mean, if_neg hne]
  have hlen : (0 : ℚ) < l.length := by exact_mod_cast List.length_pos.mpr hne
  rw [div_le_iff₀ hlen]
  calc l.sum ≤ l.length • m := List.sum_le_card_nsmul l m h
    _ = m * l.length := by rw [nsmul_eq_mul]; ring

theorem foldl_min_le : ∀ (ps : List ℚ) (p : ℚ), ∀ x ∈ p :: ps, ps.foldl min p ≤ x := by
  intro ps
  induction ps with
  | nil =>
    intro p x hx
    rw [List.mem_singleton.mp hx]
    exact le_rfl
  | cons q qs ih =>
    intro p x hx
    rw [List.foldl_cons]
    rcases List.mem_cons.mp hx with rfl | hx2
    · exact le_trans (ih (min x q) (min x q) (List.mem_cons_self _ _)) (min_le_left x q)
    rcases List.mem_cons.mp hx2 with rfl | hx3
    · exact le_trans (ih (min p x) (min p x) (List.mem_cons_self _ _)) (min_le_right p x)
    · exact ih (min p q) x (List.mem_cons_of_mem _ hx3)

theorem listMin_le {l : List ℚ} (x : ℚ) (hx : x ∈ l) : listMin l ≤ x := by
  cases l with
  | nil => exact absurd hx (List.not_mem_nil x)
  | cons p ps => exact foldl_min_le ps p x hx

theorem le_foldl_max : ∀ (ps : List ℚ) (p : ℚ), ∀ x ∈ p :: ps, x ≤ ps.foldl max p := by
  intro ps
  induction ps with
  | nil =>
    intro p x hx
    rw [List.mem_singleton.mp hx]
    exact le_rfl
  | cons q qs ih =>
    intro p x hx
    rw [List.foldl_cons]
    rcases List.mem_cons.mp hx with rfl | hx2
    · exact le_trans (le_max_left x q) (ih (max x q) (max x q) (List.mem_cons_self _ _))
    rcases List.mem_cons.mp hx2 with rfl | hx3
    · exact le_trans (le_max_right p x) (ih (max p x) (max p x) (List.mem_cons_self _ _))
    · exact ih (max p q) x (List.mem_cons_of_mem _ hx3)

theorem le_listMax {l : List ℚ} (x : ℚ) (hx : x ∈ l) : x ≤ listMax l := by
  cases l with
  | nil => exact absurd hx (List.not_mem_nil x)
  | cons p ps => exact le_foldl_max ps p x hx

theorem ema_fold_const (k c : ℚ) :
    ∀ m : ℕ,
      (List.replicate m c).foldl (fun ema val => val * k + ema * (1 - k)) c = c := by
  intro m
  induction m with
  | zero => rfl
  | succ nn ih =>
    simp only [List.replicate_succ, List.foldl_cons]
    rw [show c * k + c * (1 - k) = c by ring]
    exact ih

theorem backtestStep_fst (sqrt : ℚ → ℚ) (prices : List ℚ) (e : ℚ)
    (acc : List TradeRec × Option BtPosition) (i : ℕ) :
    (backtestStep sqrt prices e 0 acc i).1 = acc.1 := by
  obtain ⟨ts, pos⟩ := acc
  cases pos with
  | none =>
    simp only [backtestStep]
    split_ifs <;> rfl
  | some p =>
    simp only [backtestStep]
    rw [if_neg (not_lt.mpr (abs_nonneg _))]

theorem backtest_foldl_fst (sqrt : ℚ → ℚ) (prices : List ℚ) (e : ℚ) :
    ∀ (l : List ℕ) (acc : List TradeRec × Option BtPosition),
      (l.foldl (backtestStep sqrt prices e 0) acc).1 = acc.1 := by
  intro l
  induction l with
  | nil => intro acc; rfl
  | cons i rest ih =>
    intro acc
    rw [List.foldl_cons, ih, backtestStep_fst]

theorem rsi_core_bounds (recent : List ℚ) (p : ℚ) (hp : 0 < p) :
    0 ≤ (if (recent.map (fun c => |min c 0|)).sum / p = 0 then
           (if (recent.map (fun c => max c 0)).sum / p > 0 then (100 : ℚ) else 50)
         else 100 - 100 / (1 + ((recent.map (fun c => max c 0)).sum / p) /
                                 ((recent.map (fun c => |min c 0|)).sum / p))) ∧
      (if (recent.map (fun c => |min c 0|)).sum / p = 0 then
           (if (recent.map (fun c => max c 0)).sum / p > 0 then (100 : ℚ) else 50)
         else 100 - 100 / (1 + ((recent.map (fun c => max c 0)).sum / p) /
                                 ((recent.map (fun c => |min c 0|)).sum / p))) ≤ 100 := by
  have hg : 0 ≤ (recent.map (fun c => max c 0)).sum / p := by
    refine div_nonneg (List.sum_nonneg ?_) hp.le
    intro x hx
    obtain ⟨c, _, rfl⟩ := List.mem_map.mp hx
    exact le_max_right c 0
  have hl : 0 ≤ (recent.map (fun c => |min c 0|)).sum / p := by
    refine div_nonneg (List.sum_nonneg ?_) hp.le
    intro x hx
    obtain ⟨c, _, rfl⟩ := List.mem_map.mp hx
    exact abs_nonneg _
  split_ifs with h1 h2
  · norm_num
  · norm_num
  · have hlpos : 0 < (recent.map (fun c => |min c 0|)).sum / p :=
      lt_of_le_of_ne hl (Ne.symm h1)
    have hrs : 0 ≤ ((recent.map (fun c => max c 0)).sum / p) /
        ((recent.map (fun c => |min c 0|)).sum / p) := div_nonneg hg hlpos.le
    constructor
    · have h100 : 100 / (1 + ((recent.map (fun c => max c 0)).sum / p) /
          ((recent.map (fun c => |min c 0|)).sum / p)) ≤ 100 :=
        div_le_self (by norm_num) (by linarith)
      linarith
    · have hpos : 0 < 100 / (1 + ((recent.map (fun c => max c 0)).sum / p) /
          ((recent.map (fun c => |min c 0|)).sum / p)) :=
        div_pos (by norm_num) (by linarith)
      linarith

theorem corr_num_swap (x y : List ℚ) (xm ym : ℚ) :
    ((y.zip x).map (fun p => (p.1 - ym) * (p.2 - xm))).sum =
      ((x.zip y).map (fun p => (p.1 - xm) * (p.2 - ym))).sum := by
  rw [← List.zip_swap x y, List.map_map]
  refine congrArg List.sum (List.map_congr_left ?_)
  intro p _
  simp only [Function.comp_apply, Prod.fst_swap, Prod.snd_swap]
  ring

/-! ## Claims -/

/-- C1 (code_bug): `check_alerts` never compares a rule's `symbol` with
the metrics snapshot's `symbol`.  An enabled rule created for
`ETHUSDT` is triggered by a `BTCUSDT` snapshot: its `triggered_count`
is incremented and an `AlertEvent` (carrying the rule's symbol but the
other instrument's value) is appended, even though the rule's
instrument differs from the snapshot's instrument. -/
theorem C1_cross_instrument_rule_fires :
    check_alerts [⟨"r1", "ETHUSDT", "price", ">", 0, true, 0⟩] []
        ⟨0, "BTCUSDT", 100, 0, 0, 0, 0, 0, 50, none, none, none, "neutral"⟩ 0 1000 =
      ([⟨"r1", "ETHUSDT", "price", ">", 0, true, 1⟩],
       [⟨"r1", 0, "ETHUSDT", "price", 100, 0⟩]) ∧
    ("ETHUSDT" : String) ≠ "BTCUSDT" := by decide

/-- C2 (amended): with the default thresholds `entry = 2.0`,
`exit = 0.0` the exit test `|z| < 0` is unsatisfiable, so no trade is
ever closed: `trades`, `wins` and `losses` are `0` for every price
series; for series of length ≥ 20 the returned `win_rate`, `total_pnl`
and `avg_pnl` are present and equal to `0`/`0.0`, while for shorter
series the early return carries no such keys at all. -/
theorem C2_default_thresholds_zero_trades (sqrt : ℚ → ℚ) (prices : List ℚ) :
    (backtest_mean_reversion sqrt prices 2 0).trades = 0 ∧
    (backtest_mean_reversion sqrt prices 2 0).wins = 0 ∧
    (backtest_mean_reversion sqrt prices 2 0).losses = 0 ∧
    (20 ≤ prices.length →
      (backtest_mean_reversion sqrt prices 2 0).win_rate = some 0 ∧
      (backtest_mean_reversion sqrt prices 2 0).total_pnl = some 0 ∧
      (backtest_mean_reversion sqrt prices 2 0).avg_pnl = some 0) ∧
    (prices.length < 20 →
      (backtest_mean_reversion sqrt prices 2 0).win_rate = none ∧
      (backtest_mean_reversion sqrt prices 2 0).total_pnl = none ∧
      (backtest_mean_reversion sqrt prices 2 0).avg_pnl = none) := by
  by_cases h : prices.length < 20
  · have hb : backtest_mean_reversion sqrt prices 2 0 =
        { trades := 0, wins := 0, losses := 0,
          win_rate := none, total_pnl := none, avg_pnl := none } := by
      rw [backtest_mean_reversion, if_pos h]
    exact ⟨by simp [hb], by simp [hb], by simp [hb],
      fun h2 => absurd h2 (by omega), fun _ => by simp [hb]⟩
  · have hfst : ((List.range' 20 (prices.length - 20)).foldl
        (backtestStep sqrt prices 2 0) ([], none)).1 = ([] : List TradeRec) :=
      backtest_foldl_fst sqrt prices 2 _ _
    have hb : backtest_mean_reversion sqrt prices 2 0 =
        { trades := 0, wins := 0, losses := 0,
          win_rate := some 0, total_pnl := some 0, avg_pnl := some 0 } := by
      rw [backtest_mean_reversion, if_neg h]
      simp [hfst]
    exact ⟨by simp [hb], by simp [hb], by simp [hb],
      fun _ => by simp [hb], fun h2 => absurd h2 (by omega)⟩

/-- C2 counterexample: the claim as stated asserts `total_pnl` is `0.0`
for every input series, but for a series shorter than 20 points the
early-return record carries no `total_pnl` key at all. -/
theorem C2_counterexample :
    (backtest_mean_reversion (fun q => q) (List.replicate 5 1) 2 0).total_pnl ≠
      some 0 := by decide

/-- C2 witness. -/
theorem C2_witness :
    (backtest_mean_reversion (fun q => q) (List.replicate 20 1) 2 0).win_rate = some 0 ∧
    (backtest_mean_reversion (fun q => q) [3] 2 0).total_pnl = none :=
  ⟨((C2_default_thresholds_zero_trades (fun q => q) (List.replicate 20 1)).2.2.2.1
      (by decide)).1,
   ((C2_default_thresholds_zero_trades (fun q => q) [3]).2.2.2.2 (by decide)).2.1⟩

/-- C5 (amended): for every price series of length < 20 the backtest
returns the early record `{"trades": 0, "wins": 0, "losses": 0}`; the
derived-rate keys `win_rate`, `total_pnl`, `avg_pnl` are absent from
that record (not zero-filled). -/
theorem C5_short_series_partial_record (sqrt : ℚ → ℚ) (prices : List ℚ)
    (e x : ℚ) (h : prices.length < 20) :
    backtest_mean_reversion sqrt prices e x =
      { trades := 0, wins := 0, losses := 0,
        win_rate := none, total_pnl := none, avg_pnl := none } := by
  rw [backtest_mean_reversion, if_pos h]

/-- C5 counterexample: the claim asserts the full output record with
`win_rate = 0.0` for short series; the code's early return has no
`win_rate` key. -/
theorem C5_counterexample :
    (backtest_mean_reversion (fun q => q) [1, 2, 3] 2 0).win_rate ≠ some 0 := by
  decide

/-- C5 witness. -/
theorem C5_witness :
    backtest_mean_reversion (fun q => q) [7] 2 0 =
      { trades := 0, wins := 0, losses := 0,
        win_rate := none, total_pnl := none, avg_pnl := none } :=
  C5_short_series_partial_record (fun q => q) [7] 2 0 (by decide)

/-- C6 (amended): the wait computed for attempt `n` is
`min(base * 2^n, max_wait) + jitter`; its deterministic part is
non-decreasing in the attempt count; a successful connect resets
`reconnect_attempts` to `0`; but the first retry wait after a reset has
deterministic part `min(base * 2^1, max_wait)` (2.0 s with the source
defaults `base = 1`, `max_wait = 60`), not the base value, because the
counter is incremented before `exponential_backoff` is called. -/
theorem C6_backoff_formula_monotone_reset (a b : ℕ) (base max_wait j j2 : ℚ)
    (st : ClientState) (hb : 0 ≤ base) (hab : a ≤ b)
    (hmax : 1 < st.max_reconnect_attempts) :
    exponential_backoff a base max_wait j = min (base * (2 : ℚ) ^ a) max_wait + j ∧
    min (base * (2 : ℚ) ^ a) max_wait ≤ min (base * (2 : ℚ) ^ b) max_wait ∧
    (connectStep st true j2).1.reconnect_attempts = 0 ∧
    (connectStep (connectStep st true j2).1 false j).2 =
      some (min ((1 : ℚ) * 2 ^ 1) 60 + j) := by
  refine ⟨rfl, ?_, rfl, ?_⟩
  · exact min_le_min
      (mul_le_mul_of_nonneg_left (pow_le_pow_right₀ (by norm_num) hab) hb) le_rfl
  · have hS : (connectStep st true j2).1 =
        ⟨true, 0, st.max_reconnect_attempts, st.failed⟩ := rfl
    rw [hS, connectStep]
    rw [if_neg Bool.false_ne_true]
    dsimp only
    rw [if_neg (by omega : ¬ st.max_reconnect_attempts ≤ 0 + 1)]
    norm_num [exponential_backoff]

/-- C6 counterexample: the claim says that after a successful reconnect
the next backoff restarts at the base value (1.0 s plus jitter); in the
code a success resets the counter to `0`, the next failure increments
it to `1`, and the wait is `min(1 * 2^1, 60) = 2.0` plus jitter — the
wait `base + jitter = 1.0` is never produced. -/
theorem C6_counterexample :
    (connectStep (connectStep ⟨false, 5, 10, false⟩ true 0).1 false 0).2 = some 2 ∧
    (2 : ℚ) ≠ 1 + 0 := by
  constructor
  · norm_num [connectStep, exponential_backoff]
  · norm_num

/-- C6 witness. -/
theorem C6_witness :
    (connectStep (connectStep ⟨false, 5, 10, false⟩ true 0).1 false 0).2 =
      some (min ((1 : ℚ) * 2 ^ 1) 60 + 0) :=
  (C6_backoff_formula_monotone_reset 0 1 1 60 0 0 ⟨false, 5, 10, false⟩
    (by norm_num) (by omega) (by decide)).2.2.2

/-- C7 (confirmed): `calculate_rsi` with the default period 14 returns
exactly `50` for inputs of length < 15, and is bounded in `[0, 100]`
for inputs of length ≥ 15. -/
theorem C7_rsi_default_bounds (values : List ℚ) :
    (values.length < 15 → calculate_rsi values 14 = 50) ∧
    (15 ≤ values.length →
      0 ≤ calculate_rsi values 14 ∧ calculate_rsi values 14 ≤ 100) := by
  constructor
  · intro h
    rw [calculate_rsi, if_pos (by omega : values.length < 14 + 1)]
  · intro h
    simp only [calculate_rsi]
    rw [if_neg (by omega : ¬ values.length < 14 + 1)]
    exact rsi_core_bounds (lastSlice (priceChanges values) 14) ((14 : ℕ) : ℚ)
      (by norm_num)

/-- C7 witness. -/
theorem C7_witness :
    calculate_rsi ([] : List ℚ) 14 = 50 ∧
    (0 ≤ calculate_rsi [1, 2, 3, 4, 5, 6, 7, 8, 9, 10, 11, 12, 13, 14, 15] 14 ∧
      calculate_rsi [1, 2, 3, 4, 5, 6, 7, 8, 9, 10, 11, 12, 13, 14, 15] 14 ≤ 100) :=
  ⟨(C7_rsi_default_bounds []).1 (by decide),
   (C7_rsi_default_bounds [1, 2, 3, 4, 5, 6, 7, 8, 9, 10, 11, 12, 13, 14, 15]).2
     (by decide)⟩

/-- C9 (confirmed): `calculate_ema` of a single-element series is that
element, and of any non-empty constant series is the constant, for
every period. -/
theorem C9_ema_single_and_constant (period n : ℕ) (v c : ℚ) :
    calculate_ema [v] period = v ∧
    (1 ≤ n → calculate_ema (List.replicate n c) period = c) := by
  constructor
  · by_cases hp : 1 < period
    · rw [calculate_ema, if_neg (by simp), if_pos (by simpa using hp)]
      simp [calculate_mean]
    · rw [calculate_ema, if_neg (by simp), if_neg (by simpa using hp)]
      simp
  · intro hn
    have hne : List.replicate n c ≠ [] := by
      simp only [ne_eq, List.replicate_eq_nil_iff]
      omega
    by_cases hp : (List.replicate n c).length < period
    · rw [calculate_ema, if_neg hne, if_pos hp]
      rw [calculate_mean, if_neg hne]
      have hn0 : ((n : ℚ)) ≠ 0 := Nat.cast_ne_zero.mpr (by omega)
      simp only [List.sum_replicate, List.length_replicate, nsmul_eq_mul]
      exact mul_div_cancel_left₀ c hn0
    · rw [calculate_ema, if_neg hne, if_neg hp]
      obtain ⟨m, rfl⟩ : ∃ m, n = m + 1 := ⟨n - 1, by omega⟩
      simp only [List.replicate_succ, List.tail_cons, List.headI_cons]
      exact ema_fold_const _ c m

/-- C9 witness. -/
theorem C9_witness :
    calculate_ema [(5 : ℚ)] 2 = 5 ∧ calculate_ema (List.replicate 3 (7 : ℚ)) 2 = 7 :=
  ⟨(C9_ema_single_and_constant 2 3 5 7).1,
   (C9_ema_single_and_constant 2 3 5 7).2 (by decide)⟩

/-- C10 (confirmed): `calculate_correlation` is symmetric on equal-length
non-degenerate series (exactly, in the embedding's exact-arithmetic
semantics, for every modelling of `math.sqrt`). -/
theorem C10_correlation_symmetric (sqrt : ℚ → ℚ) (x y : List ℚ)
    (hlen : x.length = y.length) (h2 : 2 ≤ x.length)
    (hx : calculate_std sqrt x (some (calculate_mean x)) ≠ 0)
    (hy : calculate_std sqrt y (some (calculate_mean y)) ≠ 0) :
    calculate_correlation sqrt x y = calculate_correlation sqrt y x := by
  simp only [calculate_correlation]
  have hc1 : ¬ (x.length < 2 ∨ y.length < 2 ∨ x.length ≠ y.length) := by omega
  have hc2 : ¬ (y.length < 2 ∨ x.length < 2 ∨ y.length ≠ x.length) := by omega
  have hc3 : ¬ (calculate_std sqrt x (some (calculate_mean x)) = 0 ∨
      calculate_std sqrt y (some (calculate_mean y)) = 0) := by
    push_neg; exact ⟨hx, hy⟩
  have hc4 : ¬ (calculate_std sqrt y (some (calculate_mean y)) = 0 ∨
      calculate_std sqrt x (some (calculate_mean x)) = 0) := by
    push_neg; exact ⟨hy, hx⟩
  rw [if_neg hc1, if_neg hc2, if_neg hc3, if_neg hc4]
  rw [corr_num_swap x y (calculate_mean x) (calculate_mean y)]
  rw [show ((y.length : ℚ)) = ((x.length : ℚ)) by rw [hlen]]
  rw [mul_right_comm]

/-- C10 witness. -/
theorem C10_witness :
    calculate_correlation (fun q => q) [0, 1] [1, 0] =
      calculate_correlation (fun q => q) [1, 0] [0, 1] :=
  C10_correlation_symmetric (fun q => q) [0, 1] [1, 0] (by decide) (by decide)
    (by norm_num [calculate_std, calculate_mean, List.cons_ne_nil])
    (by norm_num [calculate_std, calculate_mean, List.cons_ne_nil])

/-- C8 (confirmed): every window emitted by `TickBuffer.flush` satisfies
`min_price ≤ mean_price ≤ max_price` and has `tick_count ≥ 1`, and a
window is only emitted for an instrument whose buffer is non-empty: an
instrument whose buffer is empty at flush time produces no window. -/
theorem C8_flush_window_invariants (sqrt : ℚ → ℚ) (t : ℚ)
    (buffer : List (String × List Tick)) (s : String) (w : SampledWindow)
    (hmem : (s, w) ∈ flush sqrt t buffer) :
    w.min_price ≤ w.mean_price ∧ w.mean_price ≤ w.max_price ∧
      1 ≤ w.tick_count ∧ ∃ ticks, (s, ticks) ∈ buffer ∧ ticks ≠ [] := by
  rw [flush, List.mem_filterMap] at hmem
  obtain ⟨e, he, hfe⟩ := hmem
  by_cases h0 : e.2 = []
  · rw [if_pos h0] at hfe
    exact absurd hfe (by simp)
  · rw [if_neg h0] at hfe
    have hpair : (e.1, flushWindow sqrt t e.1 e.2) = (s, w) := Option.some.inj hfe
    have hs : e.1 = s := congrArg Prod.fst hpair
    have hw : flushWindow sqrt t e.1 e.2 = w := congrArg Prod.snd hpair
    subst hs
    subst hw
    have hne : e.2.map (fun tk => tk.price) ≠ [] := by
      simpa using h0
    refine ⟨?_, ?_, ?_, ⟨e.2, by simpa using he, h0⟩⟩
    · show listMin (e.2.map (fun tk => tk.price)) ≤
        calculate_mean (e.2.map (fun tk => tk.price))
      exact le_calculate_mean hne (fun x hx => listMin_le x hx)
    · show calculate_mean (e.2.map (fun tk => tk.price)) ≤
        listMax (e.2.map (fun tk => tk.price))
      exact calculate_mean_le hne (fun x hx => le_listMax x hx)
    · show 1 ≤ e.2.length
      exact List.length_pos.mpr h0

/-- C8 witness. -/
theorem C8_witness :
    (flushWindow (fun q => q) 0 "BTCUSDT" [⟨0, "BTCUSDT", 100, 1⟩]).min_price ≤
        (flushWindow (fun q => q) 0 "BTCUSDT" [⟨0, "BTCUSDT", 100, 1⟩]).mean_price ∧
      (flushWindow (fun q => q) 0 "BTCUSDT" [⟨0, "BTCUSDT", 100, 1⟩]).mean_price ≤
        (flushWindow (fun q => q) 0 "BTCUSDT" [⟨0, "BTCUSDT", 100, 1⟩]).max_price ∧
      1 ≤ (flushWindow (fun q => q) 0 "BTCUSDT" [⟨0, "BTCUSDT", 100, 1⟩]).tick_count ∧
      ∃ ticks, ("BTCUSDT", ticks) ∈
          [("BTCUSDT", [(⟨0, "BTCUSDT", 100, 1⟩ : Tick)])] ∧ ticks ≠ [] :=
  C8_flush_window_invariants (fun q => q) 0
    [("BTCUSDT", [⟨0, "BTCUSDT", 100, 1⟩])] "BTCUSDT"
    (flushWindow (fun q => q) 0 "BTCUSDT" [⟨0, "BTCUSDT", 100, 1⟩])
    (List.mem_singleton.mpr rfl)

theorem process_window_eq (sqrt : ℚ → ℚ) (st : EngineState) (w : SampledWindow)
    (rh : List ℚ)
    (hcr : computeReturns st.max_history
        (dequeAppend st.max_history (st.price_history w.symbol) w.mean_price)
        (st.returns_history w.symbol) w.mean_price = Except.ok rh) :
    process_window sqrt st w = Except.ok
      (updateEngine st w
        (dequeAppend st.max_history (st.price_history w.symbol) w.mean_price)
        (dequeAppend st.max_history (st.volume_history w.symbol) w.total_volume)
        (dequeAppend st.max_history (st.timestamp_history w.symbol) w.timestamp)
        rh
        (computeMetrics sqrt st w
          (dequeAppend st.max_history (st.price_history w.symbol) w.mean_price)
          (dequeAppend st.max_history (st.volume_history w.symbol) w.total_volume)
          rh),
       computeMetrics sqrt st w
         (dequeAppend st.max_history (st.price_history w.symbol) w.mean_price)
         (dequeAppend st.max_history (st.volume_history w.symbol) w.total_volume)
         rh) := by
  simp only [process_window]
  rw [hcr]

theorem process_window_eq_error (sqrt : ℚ → ℚ) (st : EngineState) (w : SampledWindow)
    (hcr : computeReturns st.max_history
        (dequeAppend st.max_history (st.price_history w.symbol) w.mean_price)
        (st.returns_history w.symbol) w.mean_price = Except.error ()) :
    process_window sqrt st w = Except.error () := by
  simp only [process_window]
  rw [hcr]

theorem updateEngine_returns_self (st : EngineState) (w : SampledWindow)
    (ph vh th rh : List ℚ) (m : AnalyticsMetrics) :
    (updateEngine st w ph vh th rh m).returns_history w.symbol = rh := by
  simp [updateEngine]

theorem updateEngine_price_self (st : EngineState) (w : SampledWindow)
    (ph vh th rh : List ℚ) (m : AnalyticsMetrics) :
    (updateEngine st w ph vh th rh m).price_history w.symbol = ph := by
  simp [updateEngine]

theorem updateEngine_other (st : EngineState) (w : SampledWindow)
    (ph vh th rh : List ℚ) (m : AnalyticsMetrics) (s : String) (hs : s ≠ w.symbol) :
    (updateEngine st w ph vh th rh m).price_history s = st.price_history s ∧
      (updateEngine st w ph vh th rh m).returns_history s = st.returns_history s := by
  constructor <;> simp [updateEngine, hs]

theorem updateEngine_max (st : EngineState) (w : SampledWindow)
    (ph vh th rh : List ℚ) (m : AnalyticsMetrics) :
    (updateEngine st w ph vh th rh m).max_history = st.max_history := rfl

/-- C3 (amended): in `process_window`, when a prior price exists
(post-append price history longer than one element) and is non-zero,
the simple return `(p_t - p_prev) / p_prev` is appended to the
instrument's returns history; on the very first window for an
instrument nothing is appended; but when the prior price is exactly `0`
the source computes `(p_t - 0) / 0` with no guard and raises
`ZeroDivisionError` (`Except.error` here) — the return is not silently
skipped and a division by zero does occur. -/
theorem C3_simple_return_behavior (sqrt : ℚ → ℚ) (st : EngineState)
    (w : SampledWindow) :
    (¬ 1 < (appendedPriceHistory st w).length →
      ∃ st2 m, process_window sqrt st w = Except.ok (st2, m) ∧
        st2.returns_history w.symbol = st.returns_history w.symbol) ∧
    (1 < (appendedPriceHistory st w).length → priorPrice st w ≠ 0 →
      ∃ st2 m, process_window sqrt st w = Except.ok (st2, m) ∧
        st2.returns_history w.symbol =
          dequeAppend st.max_history (st.returns_history w.symbol)
            ((w.mean_price - priorPrice st w) / priorPrice st w)) ∧
    (1 < (appendedPriceHistory st w).length → priorPrice st w = 0 →
      process_window sqrt st w = Except.error ()) := by
  refine ⟨?_, ?_, ?_⟩
  · intro h1
    have h1x : ¬ 1 < (dequeAppend st.max_history (st.price_history w.symbol)
        w.mean_price).length := h1
    exact ⟨_, _,
      process_window_eq sqrt st w _ (by rw [computeReturns, if_neg h1x]),
      updateEngine_returns_self st w _ _ _ _ _⟩
  · intro h1 hp
    have h1x : 1 < (dequeAppend st.max_history (st.price_history w.symbol)
        w.mean_price).length := h1
    have hpx : ¬ (dequeAppend st.max_history (st.price_history w.symbol)
          w.mean_price).getD
        ((dequeAppend st.max_history (st.price_history w.symbol)
          w.mean_price).length - 2) 0 = 0 := hp
    exact ⟨_, _,
      process_window_eq sqrt st w _
        (by rw [computeReturns, if_pos h1x, if_neg hpx]; rfl),
      updateEngine_returns_self st w _ _ _ _ _⟩
  · intro h1 hp
    have h1x : 1 < (dequeAppend st.max_history (st.price_history w.symbol)
        w.mean_price).length := h1
    have hpx : (dequeAppend st.max_history (st.price_history w.symbol)
          w.mean_price).getD
        ((dequeAppend st.max_history (st.price_history w.symbol)
          w.mean_price).length - 2) 0 = 0 := hp
    exact process_window_eq_error sqrt st w
      (by rw [computeReturns, if_pos h1x, if_pos hpx])

/-- C3 counterexample: a window with `mean_price = 0` followed by a
second window for the same instrument makes `process_window` divide by
the zero prior price and fail (`ZeroDivisionError` in the source); the
claim states the return is skipped and no division by zero ever
occurs. -/
theorem C3_counterexample :
    runWindows (fun q => q) (initEngine 60 500)
      [⟨0, "Y", 0, 0, 0, 0, 1, 1, 0⟩, ⟨1, "Y", 5, 0, 5, 5, 1, 1, 5⟩] =
      Except.error () := rfl

/-- C3 witness. -/
theorem C3_witness :
    ∃ st2 m, process_window (fun q => q)
        ⟨60, 500, (fun s => if s = "Y" then [10] else []), fun _ => [],
          fun _ => [], fun _ => [], ["Y"], fun _ => none⟩
        ⟨1, "Y", 5, 0, 5, 5, 2, 1, 5⟩ = Except.ok (st2, m) ∧
      st2.returns_history "Y" = [((5 : ℚ) - 10) / 10] := by
  obtain ⟨st2, m, hok, hret⟩ :=
    (C3_simple_return_behavior (fun q => q)
      ⟨60, 500, (fun s => if s = "Y" then [10] else []), fun _ => [],
        fun _ => [], fun _ => [], ["Y"], fun _ => none⟩
      ⟨1, "Y", 5, 0, 5, 5, 2, 1, 5⟩).2.1 (by decide) (by decide)
  exact ⟨st2, m, hok, by rw [hret]; rfl⟩

theorem getD_mem_of_lt {l : List ℚ} {n : ℕ} (h : n < l.length) : l.getD n 0 ∈ l := by
  rw [List.getD_eq_getElem?_getD, List.getElem?_eq_getElem h, Option.getD_some]
  exact List.getElem_mem h

theorem process_window_ok_lengths (sqrt : ℚ → ℚ) (st : EngineState)
    (w : SampledWindow) (hw : w.mean_price ≠ 0)
    (hpos : ∀ y ∈ st.price_history w.symbol, y ≠ 0) :
    ∃ st2 m, process_window sqrt st w = Except.ok (st2, m) ∧
      st2.max_history = st.max_history ∧
      st2.price_history w.symbol =
        dequeAppend st.max_history (st.price_history w.symbol) w.mean_price ∧
      (∀ s, s ≠ w.symbol → st2.price_history s = st.price_history s ∧
        st2.returns_history s = st.returns_history s) ∧
      (1 < (dequeAppend st.max_history (st.price_history w.symbol)
          w.mean_price).length →
        ∃ r, st2.returns_history w.symbol =
          dequeAppend st.max_history (st.returns_history w.symbol) r) ∧
      (¬ 1 < (dequeAppend st.max_history (st.price_history w.symbol)
          w.mean_price).length →
        st2.returns_history w.symbol = st.returns_history w.symbol) := by
  by_cases h1 : 1 < (dequeAppend st.max_history (st.price_history w.symbol)
      w.mean_price).length
  · have hidx : (dequeAppend st.max_history (st.price_history w.symbol)
        w.mean_price).length - 2 <
        (dequeAppend st.max_history (st.price_history w.symbol)
          w.mean_price).length := by omega
    have hprev : ¬ (dequeAppend st.max_history (st.price_history w.symbol)
        w.mean_price).getD
        ((dequeAppend st.max_history (st.price_history w.symbol)
          w.mean_price).length - 2) 0 = 0 :=
      dequeAppend_ne_zero hpos hw _ (getD_mem_of_lt hidx)
    exact ⟨_, _,
      process_window_eq sqrt st w _
        (by rw [computeReturns, if_pos h1, if_neg hprev]),
      rfl, updateEngine_price_self st w _ _ _ _ _,
      fun s hs => updateEngine_other st w _ _ _ _ _ s hs,
      fun _ => ⟨_, updateEngine_returns_self st w _ _ _ _ _⟩,
      fun hcon => absurd h1 hcon⟩
  · exact ⟨_, _,
      process_window_eq sqrt st w _ (by rw [computeReturns, if_neg h1]),
      rfl, updateEngine_price_self st w _ _ _ _ _,
      fun s hs => updateEngine_other st w _ _ _ _ _ s hs,
      fun hcon => absurd hcon h1,
      fun _ => updateEngine_returns_self st w _ _ _ _ _⟩

theorem runWindows_lengths (sqrt : ℚ → ℚ) :
    ∀ (ws : List SampledWindow) (st : EngineState) (cnt : String → ℕ),
      (∀ w ∈ ws, w.mean_price ≠ 0) →
      2 ≤ st.max_history →
      (∀ s, (∀ y ∈ st.price_history s, y ≠ 0) ∧
        (st.price_history s).length = min (cnt s) st.max_history ∧
        (st.returns_history s).length = min (cnt s - 1) st.max_history) →
      ∃ st2, runWindows sqrt st ws = Except.ok st2 ∧
        st2.max_history = st.max_history ∧
        ∀ s, (st2.price_history s).length =
            min (cnt s + symbolCount s ws) st.max_history ∧
          (st2.returns_history s).length =
            min (cnt s + symbolCount s ws - 1) st.max_history := by
  intro ws
  induction ws with
  | nil =>
    intro st cnt _ _ hinv
    refine ⟨st, rfl, rfl, fun s => ?_⟩
    have h1 := (hinv s).2.1
    have h2 := (hinv s).2.2
    have hsc : symbolCount s [] = 0 := rfl
    exact ⟨by omega, by omega⟩
  | cons w rest ih =>
    intro st cnt hw hM hinv
    obtain ⟨st2, m, hok, hmax, hpw, hother, hret1, hret2⟩ :=
      process_window_ok_lengths sqrt st w (hw w (List.mem_cons_self w rest))
        (hinv w.symbol).1
    have hinv2 : ∀ s, (∀ y ∈ st2.price_history s, y ≠ 0) ∧
        (st2.price_history s).length =
          min (if s = w.symbol then cnt s + 1 else cnt s) st2.max_history ∧
        (st2.returns_history s).length =
          min ((if s = w.symbol then cnt s + 1 else cnt s) - 1) st2.max_history := by
      intro s
      by_cases hs : s = w.symbol
      · rw [if_pos hs, hmax, hs]
        refine ⟨?_, ?_, ?_⟩
        · rw [hpw]
          exact dequeAppend_ne_zero (hinv w.symbol).1
            (hw w (List.mem_cons_self w rest))
        · rw [hpw, dequeAppend_length, (hinv w.symbol).2.1]
          omega
        · by_cases h1 : 1 < (dequeAppend st.max_history
              (st.price_history w.symbol) w.mean_price).length
          · obtain ⟨r, hr⟩ := hret1 h1
            rw [hr, dequeAppend_length, (hinv w.symbol).2.2]
            rw [dequeAppend_length, (hinv w.symbol).2.1] at h1
            omega
          · rw [hret2 h1, (hinv w.symbol).2.2]
            rw [dequeAppend_length, (hinv w.symbol).2.1] at h1
            omega
      · rw [if_neg hs, hmax]
        obtain ⟨hp, hr⟩ := hother s hs
        exact ⟨by rw [hp]; exact (hinv s).1, by rw [hp]; exact (hinv s).2.1,
          by rw [hr]; exact (hinv s).2.2⟩
    obtain ⟨st3, hrun, hmax3, hlen⟩ := ih st2
      (fun s => if s = w.symbol then cnt s + 1 else cnt s)
      (fun w2 hw2 => hw w2 (List.mem_cons_of_mem w hw2))
      (by rw [hmax]; exact hM) hinv2
    refine ⟨st3, ?_, by rw [hmax3, hmax], fun s => ?_⟩
    · simp only [runWindows]
      rw [hok]
      exact hrun
    · have h := hlen s
      rw [hmax] at h
      have hsc : symbolCount s (w :: rest) =
          (if s = w.symbol then 1 else 0) + symbolCount s rest := by
        by_cases hs : s = w.symbol
        · rw [if_pos hs]
          simp only [symbolCount, List.filter_cons, hs]
          simp
          omega
        · rw [if_neg hs]
          simp only [symbolCount, List.filter_cons]
          simp [Ne.symm hs]
      constructor
      · rw [h.1, hsc]
        by_cases hs : s = w.symbol
        · rw [if_pos hs, if_pos hs]; omega
        · rw [if_neg hs, if_neg hs]; omega
      · rw [h.2, hsc]
        by_cases hs : s = w.symbol
        · rw [if_pos hs, if_pos hs]; omega
        · rw [if_neg hs, if_neg hs]; omega

/-- C4 (amended): for runs of `process_window` in which every window
has a non-zero mean price (a zero mean price makes the next window for
that instrument fail, see C3), an instrument's returns history has
length `min(k-1, 500)` and its price history length `min(k, 500)` after
its `k`-th window.  The claimed invariant
`len(returns) = len(prices) - 1` therefore holds exactly up to the
capacity (`k ≤ 500`); once eviction begins (`k > 500`) both deques sit
at the 500 cap and the returns history equals the price history in
length, not one less. -/
theorem C4_returns_length_invariant (sqrt : ℚ → ℚ) (ws : List SampledWindow)
    (s : String) (hw : ∀ w ∈ ws, w.mean_price ≠ 0) :
    ∃ st2, runWindows sqrt (initEngine 60 500) ws = Except.ok st2 ∧
      (st2.price_history s).length = min (symbolCount s ws) 500 ∧
      (st2.returns_history s).length = min (symbolCount s ws - 1) 500 ∧
      (symbolCount s ws ≤ 500 →
        (st2.returns_history s).length = (st2.price_history s).length - 1) := by
  obtain ⟨st2, hrun, hmax, hlen⟩ := runWindows_lengths sqrt ws (initEngine 60 500)
    (fun _ => 0) hw (by norm_num [initEngine])
    (fun s0 => ⟨fun y hy => absurd hy (List.not_mem_nil y),
      by simp [initEngine], by simp [initEngine]⟩)
  have h1 := (hlen s).1
  have h2 := (hlen s).2
  norm_num [initEngine] at h1 h2
  exact ⟨st2, hrun, h1, h2, fun hc => by omega⟩

/-- C4 counterexample: feeding 501 windows for one instrument (capacity
is 500) leaves both the price and the returns history at length 500, so
the returns history is no longer one shorter than the price history —
the claimed invariant fails once the bounded deques start evicting. -/
theorem C4_counterexample :
    ∃ st2, runWindows (fun q => q) (initEngine 60 500)
        (List.replicate 501 ⟨0, "X", 1, 0, 1, 1, 1, 1, 1⟩) = Except.ok st2 ∧
      (st2.returns_history "X").length ≠ (st2.price_history "X").length - 1 := by
  obtain ⟨st2, hrun, hmax, hlen⟩ := runWindows_lengths (fun q => q)
    (List.replicate 501 ⟨0, "X", 1, 0, 1, 1, 1, 1, 1⟩) (initEngine 60 500)
    (fun _ => 0)
    (by intro w hw; rw [(List.mem_replicate.mp hw).2]; decide)
    (by norm_num [initEngine])
    (fun s0 => ⟨fun y hy => absurd hy (List.not_mem_nil y),
      by simp [initEngine], by simp [initEngine]⟩)
  have hsc : symbolCount "X" (List.replicate 501
      (⟨0, "X", 1, 0, 1, 1, 1, 1, 1⟩ : SampledWindow)) = 501 := by
    rw [symbolCount, List.filter_replicate, if_pos (by decide),
      List.length_replicate]
  have h1 := (hlen "X").1
  have h2 := (hlen "X").2
  rw [hsc] at h1 h2
  norm_num [initEngine] at h1 h2
  exact ⟨st2, hrun, by omega⟩

/-- C4 witness. -/
theorem C4_witness :
    ∃ st2, runWindows (fun q => q) (initEngine 60 500)
        [⟨0, "X", 1, 0, 1, 1, 1, 1, 1⟩, ⟨1, "X", 1, 0, 1, 1, 1, 1, 1⟩] =
        Except.ok st2 ∧
      (st2.returns_history "X").length = (st2.price_history "X").length - 1 := by
  obtain ⟨st2, hrun, _, _, himp⟩ := C4_returns_length_invariant (fun q => q)
    [⟨0, "X", 1, 0, 1, 1, 1, 1, 1⟩, ⟨1, "X", 1, 0, 1, 1, 1, 1, 1⟩] "X" (by decide)
  exact ⟨st2, hrun, himp (by decide)⟩
